import Mathlib

/-!
Verification development for the GeckoLoader binary-patching tool
(GeckoLoader.py).  The hook-scanner logic (determine_codehook,
assert_code_hook, insert_code_hook), the CLI codehook guard, the
destination-path resolution and the main-flow resource handling are
embedded as executable Lean definitions and their claimed properties
are proved or refuted below.

The image abstraction (DolFile), the word reader (read_uint32) and the
branch writer (insert_branch) live in the repository's kernel module,
which is not part of the visible source; those pieces are modelled from
the design specification, as indicated on each definition.
-/

set_option autoImplicit false

/-- Modelled from the spec: one section descriptor of the executable image
(file offset, load address, byte size); the section carries its own bytes,
so its size is the length of `data`.  The section-table model stands in for
the DolFile class of the kernel module, which is not under src/. -/
structure DolSection where
  offset : Nat
  address : Nat
  data : List Nat
deriving DecidableEq, Repr

/-- Modelled from the spec: the in-memory image, a table of text section
descriptors and data section descriptors; reads translate virtual
addresses through the section table. -/
structure DolFile where
  textSections : List DolSection
  dataSections : List DolSection
deriving DecidableEq, Repr

/-- The code-handler state the hook logic consumes: an optional explicit
hook address and the handler's start (branch target) address. -/
structure CodeHandler where
  hookAddress : Option Nat
  startAddress : Nat
deriving DecidableEq, Repr

def sectionsOf (dol : DolFile) : List DolSection :=
  dol.textSections ++ dol.dataSections

/-- Modelled from the spec: a single byte read through the section table;
fails (none) when no section contains the address. -/
def readByte (dol : DolFile) (a : Nat) : Option Nat :=
  match (sectionsOf dol).find?
      (fun s => decide (s.address ≤ a) && decide (a < s.address + s.data.length)) with
  | some s => s.data.get? (a - s.address)
  | none => none

/-- Modelled from the spec: read_uint32 reads a big-endian 4-byte word at
the given virtual address; fails when any byte is outside every section. -/
def read_uint32 (dol : DolFile) (a : Nat) : Option Nat :=
  match readByte dol a, readByte dol (a + 1), readByte dol (a + 2), readByte dol (a + 3) with
  | some b0, some b1, some b2, some b3 =>
      some (((b0 * 256 + b1) * 256 + b2) * 256 + b3)
  | _, _, _, _ => none

/-- The word-by-word forward scan of assert_code_hook: starting at address
`a`, read 4-byte words until a return word 0x4E800020 is found and report
its address; a failed read aborts the scan.  Fuel bounds the recursion. -/
def scanForBlr (dol : DolFile) : Nat → Nat → Option Nat
  | 0, _ => none
  | fuel + 1, a =>
    match read_uint32 dol a with
    | none => none
    | some w => if w = 0x4E800020 then some a else scanForBlr dol fuel (a + 4)

/-- Enough fuel to cover every readable address of the image. -/
def dolFuel (dol : DolFile) : Nat :=
  (sectionsOf dol).foldr (fun s m => max (s.address + s.data.length) m) 0 + 1

/-- bytes.find of Python: the smallest index at which `needle` occurs in
`hay`, none when absent (Python returns -1 there). -/
def listFind (hay needle : List Nat) : Option Nat :=
  (List.range (hay.length + 1)).find?
    (fun i => decide ((hay.drop i).take needle.length = needle))

/-- Possible terminal outcomes of the hook logic. -/
inductive HookError where
  | beyondBounds
  | invalidHookSite
  | hookNotFound
  | readFault
  | branchOutOfRange
deriving DecidableEq, Repr

/-- Modelled from the spec: insert_branch / encode_branch of the kernel
module.  Displacement is to - from; fails when it is misaligned or outside
the signed 26-bit range; otherwise produces opcode 18 with the low bit set
per lk. -/
def insert_branch (toA fromA : Nat) (lk : Nat) : Except HookError Nat :=
  if ((toA : Int) - (fromA : Int)) % 4 = 0 ∧
      -(2 ^ 25 : Int) ≤ (toA : Int) - (fromA : Int) ∧
      (toA : Int) - (fromA : Int) < (2 ^ 25 : Int) then
    .ok (0x48000000 + ((((toA : Int) - (fromA : Int))) % (2 ^ 26 : Int)).toNat + lk)
  else
    .error .branchOutOfRange

/-- insert_code_hook of GeckoLoader.py: read the word at the hook address;
if it is not the return instruction, fail (parser.error, "not a blr");
otherwise write the unlinked branch to the handler start there.  The
result carries the hook address and the branch word written. -/
def insert_code_hook (dol : DolFile) (ch : CodeHandler) (address : Nat) :
    Except HookError (Nat × Nat) :=
  match read_uint32 dol address with
  | none => .error .readFault
  | some w =>
    if w = 0x4E800020 then
      match insert_branch ch.startAddress address 0 with
      | .ok word => .ok (address, word)
      | .error e => .error e
    else
      .error .invalidHookSite

/-- The per-section signature search of assert_code_hook: the GCN hook
signature is searched first; only when it is absent is the Wii hook
signature searched; the successful match yields the virtual address of the
match position. -/
def sectionStart (s : DolSection) (gcnhook wiihook : List Nat) : Option Nat :=
  match listFind s.data gcnhook with
  | some r => some (s.address + r)
  | none =>
    match listFind s.data wiihook with
    | some r => some (s.address + r)
    | none => none

/-- The section loop of assert_code_hook over a list of text sections. -/
def assertGo (dol : DolFile) (ch : CodeHandler) (gcnhook wiihook : List Nat) :
    List DolSection → Except HookError (Nat × Nat)
  | [] => .error .hookNotFound
  | s :: rest =>
    match sectionStart s gcnhook wiihook with
    | some pos =>
      match scanForBlr dol (dolFuel dol) pos with
      | some p => insert_code_hook dol ch p
      | none => .error .readFault
    | none => assertGo dol ch gcnhook wiihook rest

/-- assert_code_hook of GeckoLoader.py: iterate the text sections in table
order; in the first section containing a signature, scan forward to the
next return word and hook there; when no section matches, fail with the
hook-not-found error. -/
def assert_code_hook (dol : DolFile) (ch : CodeHandler) (gcnhook wiihook : List Nat) :
    Except HookError (Nat × Nat) :=
  assertGo dol ch gcnhook wiihook dol.textSections

/-- determine_codehook of GeckoLoader.py: with no explicit hook address,
search automatically; otherwise hook at the given address.  The two
signature constants of the kernel module are passed as parameters. -/
def determine_codehook (dol : DolFile) (ch : CodeHandler) (gcnhook wiihook : List Nat) :
    Except HookError (Nat × Nat) :=
  match ch.hookAddress with
  | none => assert_code_hook dol ch gcnhook wiihook
  | some a => insert_code_hook dol ch a

/-- The CLI guard of GeckoLoader.py line 234: the Python chained comparison
0x80000000 greater-than x greater-equal 0x81800000. -/
def codehookGuard (x : Int) : Bool :=
  decide ((0x80000000 : Int) > x) && decide (x ≥ (0x81800000 : Int))

/-- The explicit-codehook CLI path: the bounds guard, then the build with
the explicit hook address (which reaches insert_code_hook through
determine_codehook; the signature constants are irrelevant there). -/
def cliCodehook (dol : DolFile) (st x : Nat) : Except HookError (Nat × Nat) :=
  if codehookGuard (x : Int) then .error .beyondBounds
  else determine_codehook dol ⟨some x, st⟩ [] []

/-- Follows the spec's words for the search-mode scanner, for comparison
with assert_code_hook: the smallest index at which any one of the known
signatures occurs in the section. -/
def firstOccurrenceAny (hay : List Nat) (sigs : List (List Nat)) : Option Nat :=
  (List.range (hay.length + 1)).find?
    (fun i => sigs.any (fun sig => decide ((hay.drop i).take sig.length = sig)))

/-- Follows the spec's words for the search-mode scanner (the claim under
test): per section, take the first occurrence of any of the signatures and
scan forward to the next return word; first matching section wins. -/
def claimedHookScanGo (dol : DolFile) (sigs : List (List Nat)) :
    List DolSection → Option Nat
  | [] => none
  | s :: rest =>
    match firstOccurrenceAny s.data sigs with
    | some r => scanForBlr dol (dolFuel dol) (s.address + r)
    | none => claimedHookScanGo dol sigs rest

/-- The spec-worded scanner over the image's text sections. -/
def claimedHookScan (dol : DolFile) (sigs : List (List Nat)) : Option Nat :=
  claimedHookScanGo dol sigs dol.textSections

/-! Concrete fixtures used by witnesses and counterexamples. -/

def sigG : List Nat := [0xAA]

def sigW : List Nat := [0xBB]

def secNoSig : DolSection := ⟨0, 0x80003000, [0, 0, 0, 0]⟩

def secBoth : DolSection :=
  ⟨4, 0x80004000,
   [0xBB, 0, 0, 0, 0x4E, 0x80, 0x00, 0x20, 0xAA, 0, 0, 0, 0x4E, 0x80, 0x00, 0x20]⟩

def secAfter : DolSection := ⟨20, 0x80005000, [0x4E, 0x80, 0x00, 0x20]⟩

def secWiiOnly : DolSection := ⟨0, 0x80006000, [0xBB, 0x4E, 0x80, 0x00, 0x20]⟩

def exDol : DolFile := ⟨[secNoSig, secBoth, secAfter], []⟩

def exCh : CodeHandler := ⟨none, 0x80004800⟩

def exDolNoSig : DolFile := ⟨[secNoSig], []⟩

def secHigh : DolSection := ⟨0, 0x81800000, [0x4E, 0x80, 0x00, 0x20]⟩

def highDol : DolFile := ⟨[secHigh], []⟩

/-! The main-flow model: the toplevel of GeckoLoader.py from the input
checks (lines 252-257) through temporary-directory creation (lines
294-295), the build call (line 297), its cleanup (line 299) and the
FileNotFoundError handler (lines 302-303). -/

/-- How one invocation of the toplevel terminates. -/
inductive ExitPath where
  | success
  | missingDolError
  | missingCodelistError
  | fileNotFoundError
  | buildError
deriving DecidableEq, Repr

/-- The environment one invocation runs in: whether the dol file and the
code list exist, whether the bundled assets and input open without a
FileNotFoundError, and whether the build stage succeeds. -/
structure MainInput where
  dolfileExists : Bool
  codelistExists : Bool
  assetsReadable : Bool
  buildSucceeds : Bool
deriving DecidableEq, Repr

/-- Observable outcome of one invocation: the exit path, whether the
scratch temporary directory still exists at exit, whether the build stage
ran, and whether an output file was written. -/
structure MainResult where
  exitPath : ExitPath
  tmpdirLeft : Bool
  buildRan : Bool
  outputWritten : Bool
deriving DecidableEq, Repr

/-- The toplevel flow of GeckoLoader.py.  The input checks error out
before anything is opened; a FileNotFoundError from the asset or input
opens is caught before the temporary directory is created; the temporary
directory is created just before the build; a build-stage failure
terminates through parser.error, past which the rmtree call at line 299 is
never reached; on success the build writes the output and rmtree removes
the directory.  (That the build writes the output only on success is
modelled from the spec: the build internals are in the kernel module, not
under src/.) -/
def mainRun (i : MainInput) : MainResult :=
  if i.dolfileExists = false then ⟨.missingDolError, false, false, false⟩
  else if i.codelistExists = false then ⟨.missingCodelistError, false, false, false⟩
  else if i.assetsReadable = false then ⟨.fileNotFoundError, false, false, false⟩
  else if i.buildSucceeds then ⟨.success, false, true, true⟩
  else ⟨.buildError, true, true, false⟩

/-! The destination-resolution model: GeckoLoader.py lines 283-292.
Paths are lists of characters; the os.path helpers used there (POSIX
variants) are embedded below. -/

/-- A filesystem path as a plain character list. -/
abbrev FsPath := List Char

/-- The last index at which character `c` occurs in the list. -/
def lastIdxOf (c : Char) : List Char → Option Nat
  | [] => none
  | x :: xs =>
    match lastIdxOf c xs with
    | some i => some (i + 1)
    | none => if x = c then some 0 else none

/-- Whether os.path.splitext would report a nonempty extension: there is a
dot after the last slash with at least one non-dot character between the
start of the final component and that dot. -/
def hasExt (p : FsPath) : Bool :=
  match lastIdxOf '.' p with
  | none => false
  | some d =>
    match lastIdxOf '/' p with
    | none => (p.take d).any (fun c => decide (c ≠ '.'))
    | some si =>
      if si < d then ((p.drop (si + 1)).take (d - (si + 1))).any (fun c => decide (c ≠ '.'))
      else false

/-- os.path.basename: everything after the last slash. -/
def basename (p : FsPath) : FsPath :=
  match lastIdxOf '/' p with
  | none => p
  | some i => p.drop (i + 1)

/-- os.path.dirname: everything up to the last slash, with trailing
slashes stripped unless the head is all slashes. -/
def dirname (p : FsPath) : FsPath :=
  match lastIdxOf '/' p with
  | none => []
  | some i =>
    let head := p.take (i + 1)
    if head.all (fun c => decide (c = '/')) then head
    else (head.reverse.dropWhile (fun c => decide (c = '/'))).reverse

/-- os.path.join of two components (POSIX). -/
def join2 (a b : FsPath) : FsPath :=
  if b.take 1 = ['/'] then b
  else if a = [] ∨ a.getLast? = some '/' then a ++ b
  else a ++ '/' :: b

/-- Split on slashes, Python str.split style (empty components kept). -/
def splitSlashAux : List Char → List Char → List FsPath
  | [], cur => [cur.reverse]
  | c :: rest, cur =>
    if c = '/' then cur.reverse :: splitSlashAux rest []
    else splitSlashAux rest (c :: cur)

def splitSlash (p : FsPath) : List FsPath :=
  splitSlashAux p []

/-- Join components with single slashes. -/
def joinComps : List FsPath → FsPath
  | [] => []
  | [x] => x
  | x :: y :: rest => x ++ '/' :: joinComps (y :: rest)

/-- The component normalization loop of posixpath.normpath. -/
def normComps (isAbs : Bool) : List FsPath → List FsPath → List FsPath
  | acc, [] => acc
  | acc, c :: rest =>
    if c = ['.', '.'] then
      if (isAbs = false ∧ acc = []) ∨ acc.getLast? = some ['.', '.'] then
        normComps isAbs (acc ++ [c]) rest
      else if acc = [] then normComps isAbs acc rest
      else normComps isAbs acc.dropLast rest
    else normComps isAbs (acc ++ [c]) rest

/-- posixpath.normpath. -/
def normpath (p : FsPath) : FsPath :=
  if p = [] then ['.']
  else
    let initialSlashes : Nat :=
      if p.take 1 = ['/'] then
        if p.take 2 = ['/', '/'] ∧ p.take 3 ≠ ['/', '/', '/'] then 2 else 1
      else 0
    let comps := (splitSlash p).filter (fun c => decide (c ≠ [] ∧ c ≠ ['.']))
    let res := List.replicate initialSlashes '/' ++ joinComps (normComps (initialSlashes ≠ 0) [] comps)
    if res = [] then ['.'] else res

/-- The lstrip pair applied to the dest argument at lines 285 and 287:
leading backslashes are dropped, then leading slashes. -/
def destStrip (d : FsPath) : FsPath :=
  (d.dropWhile (fun c => decide (c = '\\'))).dropWhile (fun c => decide (c = '/'))

/-- The destination resolution of GeckoLoader.py lines 283-289: a dest
with an extension names the output file, a dest without one is a folder
that receives the input's basename, and no dest at all selects
BUILD/basename under the working directory; every case is joined onto the
working directory and normalized. -/
def resolveDest (cwd dolfile : FsPath) (dest : Option FsPath) : FsPath :=
  match dest with
  | some d =>
    if hasExt d then normpath (join2 cwd (destStrip d))
    else normpath (join2 (join2 cwd (destStrip d)) (basename dolfile))
  | none => normpath (join2 (join2 cwd ['B', 'U', 'I', 'L', 'D']) (basename dolfile))

/-- The chain of a directory and its ancestors (fuel-bounded). -/
def parentChain : Nat → FsPath → List FsPath
  | 0, _ => []
  | n + 1, d => d :: (if dirname d = d then [] else parentChain n (dirname d))

/-- os.makedirs with exist_ok: the directory and all its ancestors are
added to the set of existing paths. -/
def makedirs (fs : List FsPath) (d : FsPath) : List FsPath :=
  parentChain (d.length + 1) d ++ fs

/-- The directory-creation step of GeckoLoader.py lines 291-292: when the
destination does not already exist and its parent is a real directory
name, the parent (with ancestors) is created. -/
def mkdirStep (fs : List FsPath) (dest : FsPath) : List FsPath :=
  if dest ∈ fs ∨ dirname dest ∈ ([[], ['/']] : List FsPath) then fs
  else makedirs fs (dirname dest)

example : determine_codehook exDol exCh sigG sigW = .ok (0x8000400C, 0x480007F4) := rfl

example : claimedHookScan exDol [sigG, sigW] = some 0x80004004 := rfl

example : cliCodehook highDol 0x81700000 0x81800000 = .ok (0x81800000, 0x4BF00000) := rfl

example : hasExt ['o', 'u', 't', '.', 'd', 'o', 'l'] = true := rfl

example : hasExt ['o', 'u', 't'] = false := rfl

example :
    resolveDest ['/', 'w'] ['g', '.', 'd', 'o', 'l'] none =
      ['/', 'w', '/', 'B', 'U', 'I', 'L', 'D', '/', 'g', '.', 'd', 'o', 'l'] := rfl

/-! Helper lemmas shared by the claim theorems. -/

lemma insert_branch_even (toA fromA w : Nat)
    (h : insert_branch toA fromA 0 = .ok w) : w % 2 = 0 := by
  unfold insert_branch at h
  split at h
  · rename_i hcond
    obtain ⟨h4, _, _⟩ := hcond
    injection h with h
    subst h
    have hnn : (0 : Int) ≤ ((toA : Int) - (fromA : Int)) % (2 ^ 26 : Int) :=
      Int.emod_nonneg _ (by norm_num)
    have h4m : ((toA : Int) - (fromA : Int)) % (2 ^ 26 : Int) % 4 = 0 := by
      rw [Int.emod_emod_of_dvd _ (by norm_num)]
      exact h4
    omega
  · exact absurd h (by simp)

lemma insert_branch_not_beyond (toA fromA lk : Nat) :
    insert_branch toA fromA lk ≠ .error .beyondBounds := by
  unfold insert_branch
  split
  · simp
  · simp

lemma insert_code_hook_ok (dol : DolFile) (ch : CodeHandler) (a p w : Nat)
    (h : insert_code_hook dol ch a = .ok (p, w)) :
    p = a ∧ read_uint32 dol a = some 0x4E800020 ∧ w % 2 = 0 := by
  unfold insert_code_hook at h
  split at h
  · exact absurd h (by simp)
  · rename_i v hv
    split at h
    · rename_i hblr
      split at h
      · rename_i word hword
        injection h with h
        rw [Prod.mk.injEq] at h
        obtain ⟨h1, h2⟩ := h
        subst h1
        subst h2
        exact ⟨rfl, hblr ▸ hv, insert_branch_even _ _ _ hword⟩
      · exact absurd h (by simp)
    · exact absurd h (by simp)

lemma assertGo_ok (dol : DolFile) (ch : CodeHandler) (g wii : List Nat) :
    ∀ (secs : List DolSection) (p w : Nat),
      assertGo dol ch g wii secs = .ok (p, w) →
      read_uint32 dol p = some 0x4E800020 ∧ w % 2 = 0 := by
  intro secs
  induction secs with
  | nil =>
    intro p w h
    exact absurd h (by simp [assertGo])
  | cons s rest ih =>
    intro p w h
    unfold assertGo at h
    split at h
    · split at h
      · obtain ⟨h1, h2, h3⟩ := insert_code_hook_ok dol ch _ p w h
        exact ⟨h1 ▸ h2, h3⟩
      · exact absurd h (by simp)
    · exact ih p w h

lemma determine_ok (dol : DolFile) (ch : CodeHandler) (g wii : List Nat) (a w : Nat)
    (h : determine_codehook dol ch g wii = .ok (a, w)) :
    read_uint32 dol a = some 0x4E800020 ∧ w % 2 = 0 := by
  unfold determine_codehook at h
  split at h
  · exact assertGo_ok dol ch g wii dol.textSections a w h
  · rename_i x hx
    obtain ⟨h1, h2, h3⟩ := insert_code_hook_ok dol ch x a w h
    exact ⟨h1 ▸ h2, h3⟩

lemma sectionStart_none (s : DolSection) (g wii : List Nat)
    (hg : listFind s.data g = none) (hw : listFind s.data wii = none) :
    sectionStart s g wii = none := by
  unfold sectionStart
  rw [hg, hw]

lemma codehookGuard_false (x : Int) : codehookGuard x = false := by
  unfold codehookGuard
  rw [Bool.and_eq_false_iff]
  by_cases h : (0x80000000 : Int) > x
  · right
    rw [decide_eq_false_iff_not]
    omega
  · left
    rw [decide_eq_false_iff_not]
    omega

lemma insert_code_hook_not_beyond (dol : DolFile) (ch : CodeHandler) (a : Nat) :
    insert_code_hook dol ch a ≠ .error .beyondBounds := by
  unfold insert_code_hook
  split
  · simp
  · split
    · split
      · simp
      · rename_i e he
        intro hcontra
        injection hcontra with hcontra
        rw [hcontra] at he
        exact insert_branch_not_beyond ch.startAddress a 0 he
    · simp

/-! Claim theorems. -/

/-- C3: on every path through the hook logic (explicit address or
automatic search), a successful outcome yields a hook address at which the
image holds the return instruction 0x4E800020. -/
theorem hook_points_at_blr (dol : DolFile) (ch : CodeHandler) (g wii : List Nat)
    (a w : Nat) (h : determine_codehook dol ch g wii = .ok (a, w)) :
    read_uint32 dol a = some 0x4E800020 :=
  (determine_ok dol ch g wii a w h).1

/-- Witness for C3: on the concrete image the search succeeds at
0x8000400C, and the word there is the return instruction. -/
theorem hook_points_at_blr_witness :
    read_uint32 exDol 0x8000400C = some 0x4E800020 :=
  hook_points_at_blr exDol exCh sigG sigW 0x8000400C 0x480007F4 rfl

/-- C5: the branch word written at the hook address always has the link
bit clear, on both the validated and the search path. -/
theorem hook_branch_unlinked (dol : DolFile) (ch : CodeHandler) (g wii : List Nat)
    (a w : Nat) (h : determine_codehook dol ch g wii = .ok (a, w)) :
    w % 2 = 0 :=
  (determine_ok dol ch g wii a w h).2

/-- Witness for C5: the branch word written on the concrete image is even,
so its link bit is clear. -/
theorem hook_branch_unlinked_witness : (0x480007F4 : Nat) % 2 = 0 :=
  hook_branch_unlinked exDol exCh sigG sigW 0x8000400C 0x480007F4 rfl

/-- C4: in automatic mode, when no text section contains either hook
signature the build fails with the hook-not-found error (and hence no
branch is written). -/
theorem hookNotFound_when_no_signature (dol : DolFile) (ch : CodeHandler)
    (g wii : List Nat) (hauto : ch.hookAddress = none)
    (hnone : ∀ s ∈ dol.textSections, listFind s.data g = none ∧ listFind s.data wii = none) :
    determine_codehook dol ch g wii = .error .hookNotFound := by
  unfold determine_codehook
  rw [hauto]
  unfold assert_code_hook
  have hgo : ∀ secs : List DolSection,
      (∀ s ∈ secs, listFind s.data g = none ∧ listFind s.data wii = none) →
      assertGo dol ch g wii secs = .error .hookNotFound := by
    intro secs
    induction secs with
    | nil => intro _; rfl
    | cons s rest ih =>
      intro hall
      unfold assertGo
      rw [sectionStart_none s g wii (hall s (by simp)).1 (hall s (by simp)).2]
      exact ih (fun t ht => hall t (by simp [ht]))
  exact hgo dol.textSections hnone

/-- Witness for C4: a concrete image whose single text section holds
neither signature makes the search fail with the hook-not-found error. -/
theorem hookNotFound_when_no_signature_witness :
    determine_codehook exDolNoSig ⟨none, 0x80004800⟩ sigG sigW = .error .hookNotFound :=
  hookNotFound_when_no_signature exDolNoSig ⟨none, 0x80004800⟩ sigG sigW rfl (by decide)

/-- C9: the CLI out-of-bounds branch for the explicit codehook is
unreachable: its guard is false for every integer, and the explicit path
never produces the beyond-bounds error. -/
theorem codehook_guard_unreachable :
    (∀ x : Int, codehookGuard x = false) ∧
      (∀ (dol : DolFile) (st x : Nat), cliCodehook dol st x ≠ .error .beyondBounds) := by
  refine ⟨codehookGuard_false, ?_⟩
  intro dol st x
  unfold cliCodehook
  rw [codehookGuard_false]
  simp only [Bool.false_eq_true, if_false]
  unfold determine_codehook
  exact insert_code_hook_not_beyond dol ⟨some x, st⟩ x

/-- C10: within a section the GCN VI signature has priority: when it
occurs, the forward scan starts at its match position even when the Wii VI
signature also occurs (and occurs earlier); the Wii signature is consulted
only when the GCN signature is absent; automatic mode consists of exactly
this two-signature search. -/
theorem hook_signature_priority :
    (∀ (s : DolSection) (g wii : List Nat) (r rw : Nat),
        listFind s.data g = some r → listFind s.data wii = some rw →
        sectionStart s g wii = some (s.address + r))
    ∧ (∀ (s : DolSection) (g wii : List Nat) (rw : Nat),
        listFind s.data g = none → listFind s.data wii = some rw →
        sectionStart s g wii = some (s.address + rw))
    ∧ (∀ (dol : DolFile) (ch : CodeHandler) (g wii : List Nat),
        ch.hookAddress = none →
        determine_codehook dol ch g wii = assert_code_hook dol ch g wii) := by
  refine ⟨?_, ?_, ?_⟩
  · intro s g wii r rw hg _
    unfold sectionStart
    rw [hg]
  · intro s g wii rw hg hw
    unfold sectionStart
    rw [hg, hw]
  · intro dol ch g wii hauto
    unfold determine_codehook
    rw [hauto]

/-- Witness for C10: on the section containing both signatures (the Wii
one first, at offset 0, the GCN one at offset 8) the scan start is the GCN
match position; on a Wii-only section the Wii match position is used; and
on the concrete image automatic mode equals the two-signature search. -/
theorem hook_signature_priority_witness :
    sectionStart secBoth sigG sigW = some (0x80004000 + 8)
    ∧ sectionStart secWiiOnly sigG sigW = some (0x80006000 + 0)
    ∧ determine_codehook exDol exCh sigG sigW = assert_code_hook exDol exCh sigG sigW :=
  ⟨hook_signature_priority.1 secBoth sigG sigW 8 0 rfl rfl,
   hook_signature_priority.2.1 secWiiOnly sigG sigW 0 rfl rfl,
   hook_signature_priority.2.2 exDol exCh sigG sigW rfl⟩

/-- Counterexample to C1: on a section where the Wii VI signature occurs
at offset 0 and the GCN VI signature at offset 8, searching for the first
occurrence of any known signature (the claim's wording) would start the
forward scan at offset 0 and hook the return word at 0x80004004, but the
scanner actually starts at the GCN match and hooks 0x8000400C. -/
theorem hookScan_firstOccurrence_cex :
    determine_codehook exDol exCh sigG sigW = .ok (0x8000400C, 0x480007F4)
    ∧ claimedHookScan exDol [sigG, sigW] = some 0x80004004
    ∧ (0x8000400C : Nat) ≠ 0x80004004 :=
  ⟨rfl, rfl, by decide⟩

/-- C1 as amended: the scanner visits text sections in table order; in
each section the GCN VI signature is searched first and the Wii VI
signature only on its absence (captured by sectionStart, not the earliest
occurrence of either, and no GX or PAD signatures); in the first section
yielding a match the hook is the first return word at or after the match
position, and later sections do not influence the result. -/
theorem hookScan_sectionOrder_amended (dol : DolFile) (ch : CodeHandler)
    (g wii : List Nat) (pre post : List DolSection) (s : DolSection) (pos : Nat)
    (hsecs : dol.textSections = pre ++ s :: post)
    (hpre : ∀ t ∈ pre, sectionStart t g wii = none)
    (hs : sectionStart s g wii = some pos) :
    assert_code_hook dol ch g wii =
      match scanForBlr dol (dolFuel dol) pos with
      | some p => insert_code_hook dol ch p
      | none => .error .readFault := by
  unfold assert_code_hook
  rw [hsecs]
  clear hsecs
  induction pre with
  | nil =>
    rw [List.nil_append, assertGo, hs]
  | cons t rest ih =>
    rw [List.cons_append, assertGo, hpre t (by simp)]
    exact ih (fun u hu => hpre u (by simp [hu]))

/-- Witness for the amended C1: on the concrete image the first section
has no signature, the second matches the GCN signature at 0x80004008, and
the result is the hook inserted at the return word found from there,
regardless of the third section. -/
theorem hookScan_sectionOrder_amended_witness :
    assert_code_hook exDol exCh sigG sigW =
      match scanForBlr exDol (dolFuel exDol) 0x80004008 with
      | some p => insert_code_hook exDol exCh p
      | none => .error .readFault :=
  hookScan_sectionOrder_amended exDol exCh sigG sigW [secNoSig] [secAfter] secBoth
    0x80004008 rfl (by decide) rfl

/-- Counterexample to C2: the explicit hook address 0x81800000 does not
lie strictly below the reserved upper boundary 0x81800000, yet the CLI
path accepts it and writes the branch, because the bounds guard at line
234 can never fire. -/
theorem explicitHook_bounds_cex :
    cliCodehook highDol 0x81700000 0x81800000 = .ok (0x81800000, 0x4BF00000)
    ∧ ¬ ((0x81800000 : Nat) < 0x81800000) :=
  ⟨rfl, by decide⟩

/-- C2 as amended: the explicit-address path never enforces the bounds
condition (the guard is vacuous), so it reduces to insert_code_hook; the
only validated condition is that the word at the address is the return
instruction 0x4E800020 - a different readable word yields the
invalid-hook-site error, an unreadable address the read fault, and in
either error case no branch is written. -/
theorem explicitHook_validation_amended :
    (∀ (dol : DolFile) (st x : Nat),
        cliCodehook dol st x = insert_code_hook dol ⟨some x, st⟩ x)
    ∧ (∀ (dol : DolFile) (st x w : Nat),
        read_uint32 dol x = some w → w ≠ 0x4E800020 →
        cliCodehook dol st x = .error .invalidHookSite)
    ∧ (∀ (dol : DolFile) (st x : Nat),
        read_uint32 dol x = none →
        cliCodehook dol st x = .error .readFault) := by
  have hbase : ∀ (dol : DolFile) (st x : Nat),
      cliCodehook dol st x = insert_code_hook dol ⟨some x, st⟩ x := by
    intro dol st x
    unfold cliCodehook
    rw [codehookGuard_false]
    simp only [Bool.false_eq_true, if_false]
    unfold determine_codehook
    rfl
  refine ⟨hbase, ?_, ?_⟩
  · intro dol st x w hr hw
    rw [hbase]
    unfold insert_code_hook
    rw [hr]
    simp only [if_neg hw]
  · intro dol st x hr
    rw [hbase]
    unfold insert_code_hook
    rw [hr]

/-- Witness for the amended C2: the explicit path equals insert_code_hook
at a concrete address; at 0x80004000 the word 0xBB000000 is not a return
instruction and the invalid-hook-site error results; at the unmapped
address 0 the read fault results. -/
theorem explicitHook_validation_amended_witness :
    cliCodehook exDol 0x80004800 0x8000400C = insert_code_hook exDol ⟨some 0x8000400C, 0x80004800⟩ 0x8000400C
    ∧ cliCodehook exDol 0x80004800 0x80004000 = .error .invalidHookSite
    ∧ cliCodehook exDol 0x80004800 0 = .error .readFault :=
  ⟨explicitHook_validation_amended.1 exDol 0x80004800 0x8000400C,
   explicitHook_validation_amended.2.1 exDol 0x80004800 0x80004000 0xBB000000 rfl (by decide),
   explicitHook_validation_amended.2.2 exDol 0x80004800 0 rfl⟩

/-- Counterexample to C6: when the inputs exist and the assets open but
the build stage fails, the invocation exits with the scratch temporary
directory still present - it is not removed on every exit path. -/
theorem tmpdir_leak_cex :
    (mainRun ⟨true, true, true, false⟩).tmpdirLeft = true
    ∧ (mainRun ⟨true, true, true, false⟩).exitPath = ExitPath.buildError :=
  ⟨rfl, rfl⟩

/-- C6 as amended: the scratch temporary directory is left behind exactly
when the build stage itself fails; exits before its creation (missing
inputs, unreadable assets) leave nothing, and successful completion
removes it. -/
theorem tmpdir_cleanup_amended (i : MainInput) :
    (mainRun i).tmpdirLeft =
      (i.dolfileExists && i.codelistExists && i.assetsReadable && !i.buildSucceeds) := by
  rcases i with ⟨d, c, ar, b⟩
  cases d <;> cases c <;> cases ar <;> cases b <;> rfl

/-- C7: a missing input file or folder is detected before the build
stage runs; the exit is a resource-not-found error of its own kind
(distinct from the build-stage and structural failure paths) and no
output file is written. -/
theorem missing_input_precheck (i : MainInput)
    (h : i.dolfileExists = false ∨ i.codelistExists = false) :
    (mainRun i).buildRan = false
    ∧ (mainRun i).outputWritten = false
    ∧ ((mainRun i).exitPath = ExitPath.missingDolError
        ∨ (mainRun i).exitPath = ExitPath.missingCodelistError)
    ∧ (mainRun i).exitPath ≠ ExitPath.buildError
    ∧ (mainRun i).exitPath ≠ ExitPath.fileNotFoundError
    ∧ (mainRun i).exitPath ≠ ExitPath.success := by
  rcases i with ⟨d, c, ar, b⟩
  revert h
  cases d <;> cases c <;> cases ar <;> cases b <;> decide

/-- Witness for C7: with the dol file missing, no build runs, no output is
written, and the exit is the missing-dol resource error. -/
theorem missing_input_precheck_witness :
    (mainRun ⟨false, true, true, true⟩).buildRan = false
    ∧ (mainRun ⟨false, true, true, true⟩).outputWritten = false
    ∧ ((mainRun ⟨false, true, true, true⟩).exitPath = ExitPath.missingDolError
        ∨ (mainRun ⟨false, true, true, true⟩).exitPath = ExitPath.missingCodelistError)
    ∧ (mainRun ⟨false, true, true, true⟩).exitPath ≠ ExitPath.buildError
    ∧ (mainRun ⟨false, true, true, true⟩).exitPath ≠ ExitPath.fileNotFoundError
    ∧ (mainRun ⟨false, true, true, true⟩).exitPath ≠ ExitPath.success :=
  missing_input_precheck ⟨false, true, true, true⟩ (Or.inl rfl)

/-- C8: destination resolution and parent creation.  A dest with an
extension is the output file path; a dest without one is a folder
receiving the input's basename; an absent dest selects BUILD/basename
under the working directory; and whenever the destination's parent
directory name is a proper one, the creation step guarantees that the
parent exists afterwards (given a parent-closed filesystem in which the
root exists). -/
theorem dest_resolution :
    (∀ (cwd dolfile d : FsPath), hasExt d = true →
        resolveDest cwd dolfile (some d) = normpath (join2 cwd (destStrip d)))
    ∧ (∀ (cwd dolfile d : FsPath), hasExt d = false →
        resolveDest cwd dolfile (some d) =
          normpath (join2 (join2 cwd (destStrip d)) (basename dolfile)))
    ∧ (∀ cwd dolfile : FsPath,
        resolveDest cwd dolfile none =
          normpath (join2 (join2 cwd ['B', 'U', 'I', 'L', 'D']) (basename dolfile)))
    ∧ (∀ (fs : List FsPath) (dest : FsPath),
        (∀ p ∈ fs, dirname p ∈ fs) → ['/'] ∈ fs → dirname dest ≠ [] →
        dirname dest ∈ mkdirStep fs dest) := by
  refine ⟨?_, ?_, ?_, ?_⟩
  · intro cwd dolfile d hd
    rw [resolveDest, if_pos hd]
  · intro cwd dolfile d hd
    rw [resolveDest, if_neg (by simp [hd])]
  · intro cwd dolfile
    rfl
  · intro fs dest hclosed hroot hne
    unfold mkdirStep
    split
    · rename_i hcond
      rcases hcond with hmem | hdir
      · exact hclosed dest hmem
      · rcases List.mem_pair.mp hdir with h0 | h0
        · exact absurd h0 hne
        · rw [h0]
          exact hroot
    · rw [makedirs, parentChain]
      exact List.mem_append_left _ (List.mem_cons_self _ _)

/-- Witness for C8: a dest with an extension resolves to the working
directory joined with the stripped dest, and on a concrete parent-closed
filesystem the creation step makes the destination's parent exist. -/
theorem dest_resolution_witness :
    resolveDest ['/', 'w'] ['g', '.', 'd', 'o', 'l'] (some ['o', 'u', 't', '.', 'd', 'o', 'l']) =
      normpath (join2 ['/', 'w'] (destStrip ['o', 'u', 't', '.', 'd', 'o', 'l']))
    ∧ dirname ['/', 'w', '/', 'o'] ∈ mkdirStep [['/'], ['/', 'w']] ['/', 'w', '/', 'o'] :=
  ⟨dest_resolution.1 ['/', 'w'] ['g', '.', 'd', 'o', 'l'] ['o', 'u', 't', '.', 'd', 'o', 'l'] rfl,
   dest_resolution.2.2.2 [['/'], ['/', 'w']] ['/', 'w', '/', 'o']
     (by decide) (by decide) (by decide)⟩
